import Mathlib

/-!
Shallow embedding of the diff-reconstruction core of `Diff_to_HTML.py`
(Sourcetree_Diff_Converter).  Lines of text are modelled as `List Char`;
Python string primitives (`splitlines`, `split`, `strip`, `int(...)`,
`startswith`) are modelled character by character.  The stateful HTML
writer is modelled as a pure function that returns the ordered list of
structural output items it has written together with the exception, if
any, that aborted it (the source wraps the whole writer in one
`try/except`).
-/

deriving instance DecidableEq for Except

/-- A single line of text, as produced by `str.splitlines`. -/
abbrev Line := List Char

/-- Characters of a string literal (model of Python text constants). -/
def chars (s : String) : Line := s.data

/-- Python whitespace for `str.strip()` / `int()` stripping (ASCII part). -/
def isPyWS (c : Char) : Bool :=
  c = ' ' || c = '\t' || c = '\n' || c = '\r' || c = '\x0b' || c = '\x0c'

/-- Model of Python `str.split(sep)` for a one-character separator:
keeps empty chunks, `''.split(sep) = ['']`. -/
def splitOnChar (sep : Char) : List Char → List (List Char)
  | [] => [[]]
  | c :: cs =>
    if c = sep then [] :: splitOnChar sep cs
    else
      match splitOnChar sep cs with
      | [] => [[c]]
      | h :: t => (c :: h) :: t

/-- Line-break characters recognised by Python `str.splitlines`. -/
def isLineBreak (c : Char) : Bool :=
  c = '\n' || c = '\r' || c = '\x0b' || c = '\x0c' ||
  c = '\x1c' || c = '\x1d' || c = '\x1e' || c = '\x85' ||
  c = '\u2028' || c = '\u2029'

/-- Accumulator worker for `pySplitlines`; `cur` holds the current line
reversed. -/
def pySplitlinesAux (cur : Line) : List Char → List Line
  | [] => if cur.isEmpty then [] else [cur.reverse]
  | [c] => if isLineBreak c then [cur.reverse] else [(c :: cur).reverse]
  | c :: c2 :: cs =>
    if c = '\r' && c2 = '\n' then cur.reverse :: pySplitlinesAux [] cs
    else if isLineBreak c then cur.reverse :: pySplitlinesAux [] (c2 :: cs)
    else pySplitlinesAux (c :: cur) (c2 :: cs)

/-- Model of Python `str.splitlines()` (no trailing empty line; `\r\n`
counts as one break). -/
def pySplitlines (s : List Char) : List Line := pySplitlinesAux [] s

/-- Model of Python `str.strip()` (whitespace from both ends). -/
def pyStrip (l : Line) : Line :=
  ((l.dropWhile isPyWS).reverse.dropWhile isPyWS).reverse

/-- Decimal digits with Python's single-underscore-between-digits rule,
accumulating the value; used by the model of `int(...)`. -/
def pyDigitsAux (acc : Nat) : List Char → Option Nat
  | [] => some acc
  | c :: cs =>
    if c.isDigit then pyDigitsAux (10 * acc + (c.toNat - 48)) cs
    else if c = '_' then
      match cs with
      | d :: _ => if d.isDigit then pyDigitsAux acc cs else none
      | [] => none
    else none

/-- A nonempty ASCII digit run (with Python's underscore grouping),
or `none`. -/
def pyDigits : List Char → Option Nat
  | [] => none
  | c :: cs => if c.isDigit then pyDigitsAux (c.toNat - 48) cs else none

/-- Model of Python `int(s)`: strip whitespace, optional sign, nonempty
decimal digits (ASCII); `none` models the `ValueError`. -/
def pyInt (s : List Char) : Option Int :=
  match ((s.dropWhile isPyWS).reverse.dropWhile isPyWS).reverse with
  | '+' :: rest => (pyDigits rest).map Int.ofNat
  | '-' :: rest => (pyDigits rest).map (fun n => -(Int.ofNat n))
  | rest => (pyDigits rest).map Int.ofNat

/-- The Python exceptions that the diff-rendering loop can raise: an
out-of-range `parts[i]` access, `int(...)` on a non-numeric token
(payload = the offending token), and `html.escape` applied to the `int`
line counter on a context line (an `AttributeError` in CPython). -/
inductive PyErr where
  | indexError : PyErr
  | valueError : List Char → PyErr
  | attributeError : PyErr
deriving DecidableEq, Repr

/-- One table row of the two-column (Old Version | New Version) output.
`oldSide` rows carry content only in the first (old) column, `newSide`
only in the second (new) column; `unchanged` is the shape the context
branch attempts (it raises before writing it); `boundary` is the
`<hr>` row written for each hunk header. -/
inductive Row where
  | boundary : Row
  | oldSide : List Char → Int → Char → List Char → Row
  | newSide : List Char → Int → Char → List Char → Row
  | unchanged : Int → Int → List Char → Row
deriving DecidableEq, Repr

/-- Parse of the two start numbers of a hunk header line, following the
source exactly (`parts = line.split(' ')`;
`old_line_num = int(parts[1].split(',')[0][1:])`;
`new_line_num = int(parts[2].split(',')[0][1:])`), including Python's
evaluation order of the two statements.  One-commit branch
(`Diff_to_HTML.py` lines 93-95). -/
def headerStarts1 (l : Line) : Except PyErr (Int × Int) :=
  let parts := splitOnChar ' ' l
  match parts.get? 1 with
  | none => .error .indexError
  | some p1 =>
    let t1 := ((splitOnChar ',' p1).headD []).drop 1
    match pyInt t1 with
    | none => .error (.valueError t1)
    | some o =>
      match parts.get? 2 with
      | none => .error .indexError
      | some p2 =>
        let t2 := ((splitOnChar ',' p2).headD []).drop 1
        match pyInt t2 with
        | none => .error (.valueError t2)
        | some n => .ok (o, n)

/-- Same parse as written a second time in the two-commit branch
(`Diff_to_HTML.py` lines 139-141). -/
def headerStarts2 (l : Line) : Except PyErr (Int × Int) :=
  let parts := splitOnChar ' ' l
  match parts.get? 1 with
  | none => .error .indexError
  | some p1 =>
    let t1 := ((splitOnChar ',' p1).headD []).drop 1
    match pyInt t1 with
    | none => .error (.valueError t1)
    | some o =>
      match parts.get? 2 with
      | none => .error .indexError
      | some p2 =>
        let t2 := ((splitOnChar ',' p2).headD []).drop 1
        match pyInt t2 with
        | none => .error (.valueError t2)
        | some n => .ok (o, n)

/-- One iteration of the row-writing loop of the one-commit modified-file
branch (`Diff_to_HTML.py` lines 91-106): given the current old/new
counters and the line, return the new counters and the rows written, or
the exception raised.  A `@@` line re-seeds both counters and writes the
boundary `<hr>` row (the parse precedes the write); a `+` line is
written into the first (Old Version) column with class `removed`,
marker `-` and the old counter, which is then incremented; a `-` line
into the second (New Version) column with class `added`, marker `+` and
the new counter; any other line reaches
`html.escape(new_line_num)` on the `int` counter and raises before
writing its row. -/
def processLine1 (o n : Int) (l : Line) : Except PyErr (Int × Int × List Row) :=
  if (chars "@@").isPrefixOf l then
    match headerStarts1 l with
    | .error e => .error e
    | .ok (o2, n2) => .ok (o2, n2, [Row.boundary])
  else if (chars "+").isPrefixOf l then
    .ok (o + 1, n, [Row.oldSide (chars "removed") o '-' (l.drop 1)])
  else if (chars "-").isPrefixOf l then
    .ok (o, n + 1, [Row.newSide (chars "added") n '+' (l.drop 1)])
  else
    .error .attributeError

/-- The identical loop body as written a second time in the two-commit
branch (`Diff_to_HTML.py` lines 137-152). -/
def processLine2 (o n : Int) (l : Line) : Except PyErr (Int × Int × List Row) :=
  if (chars "@@").isPrefixOf l then
    match headerStarts2 l with
    | .error e => .error e
    | .ok (o2, n2) => .ok (o2, n2, [Row.boundary])
  else if (chars "+").isPrefixOf l then
    .ok (o + 1, n, [Row.oldSide (chars "removed") o '-' (l.drop 1)])
  else if (chars "-").isPrefixOf l then
    .ok (o, n + 1, [Row.newSide (chars "added") n '+' (l.drop 1)])
  else
    .error .attributeError

/-- The row loop over all lines (one-commit branch): rows written so
far are kept even when a later line raises, mirroring the file writes
that precede the exception. -/
def runRows1 (o n : Int) : List Line → List Row × Option PyErr
  | [] => ([], none)
  | l :: ls =>
    match processLine1 o n l with
    | .error e => ([], some e)
    | .ok (o2, n2, rs) =>
      let rest := runRows1 o2 n2 ls
      (rs ++ rest.1, rest.2)

/-- The row loop of the two-commit branch. -/
def runRows2 (o n : Int) : List Line → List Row × Option PyErr
  | [] => ([], none)
  | l :: ls =>
    match processLine2 o n l with
    | .error e => ([], some e)
    | .ok (o2, n2, rs) =>
      let rest := runRows2 o2 n2 ls
      (rs ++ rest.1, rest.2)

/-- The preamble filter of the one-commit branch (`Diff_to_HTML.py`
line 79): drop `diff --git`, `index `, `--- ` and `+++ ` lines. -/
def preFilter1 (ls : List Line) : List Line :=
  ls.filter (fun l => !((chars "diff --git").isPrefixOf l ||
    (chars "index ").isPrefixOf l || (chars "--- ").isPrefixOf l ||
    (chars "+++ ").isPrefixOf l))

/-- The same filter as written again in the two-commit branch
(`Diff_to_HTML.py` line 125). -/
def preFilter2 (ls : List Line) : List Line :=
  ls.filter (fun l => !((chars "diff --git").isPrefixOf l ||
    (chars "index ").isPrefixOf l || (chars "--- ").isPrefixOf l ||
    (chars "+++ ").isPrefixOf l))

/-- The difference count of the one-commit branch (`Diff_to_HTML.py`
line 80): number of (already filtered) lines starting with `-` or `+`. -/
def differenceCount1 (ls : List Line) : Nat :=
  (ls.filter (fun l => (chars "-").isPrefixOf l || (chars "+").isPrefixOf l)).length

/-- The same count as written again in the two-commit branch
(`Diff_to_HTML.py` line 126). -/
def differenceCount2 (ls : List Line) : Nat :=
  (ls.filter (fun l => (chars "-").isPrefixOf l || (chars "+").isPrefixOf l)).length

/-- ASCII identifier-start class `[a-zA-Z_]` of the extractor's regex. -/
def isIdentStart (c : Char) : Bool := c.isAlpha || c = '_'

/-- ASCII identifier class `[a-zA-Z0-9_]` of the extractor's regex. -/
def isIdentChar (c : Char) : Bool := c.isAlphanum || c = '_'

/-- Match `([a-zA-Z_][a-zA-Z0-9_]*)` at the head of the text: the
(greedy, maximal) identifier, or `none`. -/
def takeIdent : List Char → Option (List Char)
  | [] => none
  | c :: cs => if isIdentStart c then some (c :: cs.takeWhile isIdentChar) else none

/-- Match `s*([a-zA-Z_][a-zA-Z0-9_]*)` with the backtracking of the
regex engine: consume `s` characters greedily, giving one back when the
identifier group would otherwise fail. -/
def sStarIdent : List Char → Option (List Char)
  | [] => none
  | c :: cs =>
    if c = 's' then
      match sStarIdent cs with
      | some r => some r
      | none => takeIdent (c :: cs)
    else takeIdent (c :: cs)

/-- Match the part of the pattern after the closing `@@`:
`\s*(def|function)` followed by a literal backslash (the source writes
`\\s*` inside a raw string, so the regex demands the two characters
`\` then `s*`), then `s*` and the identifier group.  Returns the text
captured by group 2. -/
def afterAtAt (l : List Char) : Option (List Char) :=
  let l1 := l.dropWhile isPyWS
  match l1 with
  | 'd' :: 'e' :: 'f' :: r =>
    (match r with
     | '\\' :: r2 => sStarIdent r2
     | _ => none)
  | 'f' :: 'u' :: 'n' :: 'c' :: 't' :: 'i' :: 'o' :: 'n' :: r =>
    (match r with
     | '\\' :: r2 => sStarIdent r2
     | _ => none)
  | _ => none

/-- All suffixes that follow an occurrence of `@@`, left to right. -/
def atAtTails : List Char → List (List Char)
  | [] => []
  | [_] => []
  | a :: b :: t =>
    if a = '@' && b = '@' then t :: atAtTails (b :: t)
    else atAtTails (b :: t)

/-- Model of `re.compile(r'^@@.*@@\s*(def|function)\\s*([a-zA-Z_][a-zA-Z0-9_]*)').match(line)`:
the line must start with `@@`; the greedy `.*@@` is rendered by trying
the tails after each later `@@`, rightmost first; the result is the text
of capture group 2, or `none` when the pattern does not match.  (`.`
cannot match a line break, but inputs come from `splitlines` and contain
none.) -/
def matchDefPattern (l : Line) : Option (List Char) :=
  match l with
  | '@' :: '@' :: rest => (atAtTails rest).reverse.findSome? afterAtAt
  | _ => none

/-- Model of `extract_function_names` (`Diff_to_HTML.py` lines 33-40):
scan every line of the diff text, collect group 2 of each match into a
set (modelled as a duplicate-free list in insertion order). -/
def extract_function_names (diff : List Char) : List (List Char) :=
  (pySplitlines diff).foldl
    (fun acc l =>
      match matchDefPattern l with
      | some name => if name ∈ acc then acc else acc ++ [name]
      | none => acc)
    []

/-- The structural output items written to the HTML report, in order:
per-file `<h2>` heading, the added/deleted notices with their
line-numbered single-column blocks, the difference count and
touched-function list of a modified file, and its table rows. -/
inductive OutItem where
  | fileHeader : List Char → OutItem
  | addedNote : List Char → OutItem
  | deletedNote : List Char → OutItem
  | addedBlock : List (Nat × List Char) → OutItem
  | removedBlock : List (Nat × List Char) → OutItem
  | diffCount : Nat → OutItem
  | funcNames : List (List Char) → OutItem
  | row : Row → OutItem
deriving DecidableEq, Repr

/-- `enumerate(content.splitlines(), 1)` with `line.strip()` applied to
each element, as in the added/deleted-file blocks. -/
def enumStrip : Nat → List Line → List (Nat × List Char)
  | _, [] => []
  | i, l :: ls => (i, pyStrip l) :: enumStrip (i + 1) ls

/-- One entry of the `diffs` list assembled by the `__main__` block:
raw diff text, file name, status letter, and raw file content. -/
structure DiffData where
  diff : List Char
  fileName : List Char
  fileStatus : List Char
  fileContent : List Char
deriving DecidableEq, Repr

/-- The modified-file ("Editted File") path of the one-commit branch
(`Diff_to_HTML.py` lines 77-108): filter the preamble, write the
difference count and the extracted function names, then run the row
loop from counters `(0, 0)`. -/
def renderItems1 (diff : List Char) : List OutItem × Option PyErr :=
  let lines := preFilter1 (pySplitlines diff)
  let rowsErr := runRows1 0 0 lines
  ([.diffCount (differenceCount1 lines),
    .funcNames (extract_function_names diff)] ++ rowsErr.1.map .row,
   rowsErr.2)

/-- The modified-file path of the two-commit branch (`Diff_to_HTML.py`
lines 123-154), written out a second time in the source. -/
def renderItems2 (diff : List Char) : List OutItem × Option PyErr :=
  let lines := preFilter2 (pySplitlines diff)
  let rowsErr := runRows2 0 0 lines
  ([.diffCount (differenceCount2 lines),
    .funcNames (extract_function_names diff)] ++ rowsErr.1.map .row,
   rowsErr.2)

/-- The per-file body of `write_diff_to_html` (`Diff_to_HTML.py` lines
64-154): with one commit selected, status `A` gives the added block and
status `D` the removed block; with two commits selected the source
branches the other way around (status `D` gives the "File added" added
block, status `A` the "File deleted" removed block); anything else runs
the modified-file path. -/
def writeFileItems (oneArgument : Bool) (d : DiffData) : List OutItem × Option PyErr :=
  if oneArgument then
    if d.fileStatus = chars "A" then
      ([.addedNote d.fileName, .addedBlock (enumStrip 1 (pySplitlines d.fileContent))], none)
    else if d.fileStatus = chars "D" then
      ([.deletedNote d.fileName, .removedBlock (enumStrip 1 (pySplitlines d.fileContent))], none)
    else
      renderItems1 d.diff
  else
    if d.fileStatus = chars "D" then
      ([.addedNote d.fileName, .addedBlock (enumStrip 1 (pySplitlines d.fileContent))], none)
    else if d.fileStatus = chars "A" then
      ([.deletedNote d.fileName, .removedBlock (enumStrip 1 (pySplitlines d.fileContent))], none)
    else
      renderItems2 d.diff

/-- Model of `write_diff_to_html` (`Diff_to_HTML.py` lines 43-158): the
`<h2>` heading of each file is written before its body; the single
`try/except` around the whole loop means the first exception stops the
run, keeping everything already written and dropping every remaining
file.  Returns the ordered output items and the aborting exception, if
any. -/
def write_diff_to_html (oneArgument : Bool) : List DiffData → List OutItem × Option PyErr
  | [] => ([], none)
  | d :: ds =>
    let body := writeFileItems oneArgument d
    match body.2 with
    | some e => (.fileHeader d.fileName :: body.1, some e)
    | none =>
      let rest := write_diff_to_html oneArgument ds
      (.fileHeader d.fileName :: body.1 ++ rest.1, rest.2)

/-- Spec §4.1 classification of a hunk body line: leading `+` is
`Added`, leading `-` is `Removed`, anything else is `Context`. -/
inductive LineKind where
  | Context : LineKind
  | Added : LineKind
  | Removed : LineKind
deriving DecidableEq, Repr

/-- The `LineRecord` kind of a body line, per the spec's parsing rules. -/
def classify (l : Line) : LineKind :=
  if (chars "+").isPrefixOf l then .Added
  else if (chars "-").isPrefixOf l then .Removed
  else .Context

/-- The body lines of a (filtered) diff: everything that is not a hunk
header line. -/
def bodyLines (ls : List Line) : List Line :=
  ls.filter (fun l => !(chars "@@").isPrefixOf l)

/-- Decimal value of a digit string. -/
def decVal (l : List Char) : Nat :=
  l.foldl (fun a c => 10 * a + (c.toNat - 48)) 0

/-- A hunk header line assembled from its pieces: `@@ -o,c1 +n,c2 trail`
with every piece arbitrary text. -/
def mkHeader (o c1 n c2 trail : List Char) : Line :=
  chars "@@ -" ++ o ++ [','] ++ c1 ++ [' ', '+'] ++ n ++ [','] ++ c2 ++ [' '] ++ trail

/-- The shape of a row in the spec's `AlignedRow` vocabulary: which
side(s) carry content, with their line numbers and text (presentation
class and marker dropped). -/
inductive RowShape where
  | boundary : RowShape
  | oldOnly : Int → List Char → RowShape
  | newOnly : Int → List Char → RowShape
  | unchangedRow : Int → Int → List Char → RowShape
deriving DecidableEq, Repr

/-- Forget the CSS class and marker of a written row, keeping its
side/number/text shape. -/
def rowShape : Row → RowShape
  | .boundary => .boundary
  | .oldSide _ n _ t => .oldOnly n t
  | .newSide _ n _ t => .newOnly n t
  | .unchanged o n t => .unchangedRow o n t

/-- The §8 scenario diff text of claim C2:
`@@ -10,2 +10,3 @@` / ` context line` / `-old line` / `+new line A` /
`+new line B`. -/
def scenarioC2 : List Char :=
  chars "@@ -10,2 +10,3 @@\n context line\n-old line\n+new line A\n+new line B\n"

/-- A modified file whose diff has a valid hunk and then a malformed
header. -/
def c3input : List Line :=
  [chars "@@ -1,1 +1,1 @@", chars "+a", chars "@@ -x,2 +10,2 @@"]

/-- A modified-status file whose diff opens with the malformed header
`@@ -x,2 +10,2 @@`. -/
def dBad : DiffData :=
  { diff := chars "@@ -x,2 +10,2 @@\n+a\n",
    fileName := chars "a", fileStatus := chars "", fileContent := chars "" }

/-- A well-formed added file named `b`. -/
def dGood : DiffData :=
  { diff := chars "", fileName := chars "b", fileStatus := chars "A",
    fileContent := chars "x" }

/-- An added-status file with one-line content, used against the
two-commit branch. -/
def dAdded : DiffData :=
  { diff := chars "", fileName := chars "f", fileStatus := chars "A",
    fileContent := chars "x" }

theorem chars_plus : chars "+" = ['+'] := rfl

theorem chars_minus : chars "-" = ['-'] := rfl

theorem chars_atat : chars "@@" = ['@', '@'] := rfl

/-- C1: on a modified-file diff the code writes a `+` line into the Old
Version column numbered by the old counter (class `removed`, marker `-`)
and advances the old counter; a `-` line into the New Version column by
the new counter; a context line raises `AttributeError` before any row
is written; header starts do seed both counters. -/
theorem C1_sides_swapped_and_context_raises :
    processLine1 0 0 (chars "@@ -10,2 +10,3 @@") = .ok (10, 10, [Row.boundary]) ∧
    processLine1 10 20 (chars "+x") =
      .ok (11, 20, [Row.oldSide (chars "removed") 10 '-' (chars "x")]) ∧
    processLine1 10 20 (chars "-y") =
      .ok (10, 21, [Row.newSide (chars "added") 20 '+' (chars "y")]) ∧
    processLine1 10 20 (chars " c") = .error .attributeError := by
  decide

/-- C2 counterexample: on the §8 scenario input the difference count is
not 2 and the four claimed aligned rows are not produced. -/
theorem C2_counterexample :
    ¬ (differenceCount1 (preFilter1 (pySplitlines scenarioC2)) = 2 ∧
       (renderItems1 scenarioC2).2 = none ∧
       (runRows1 0 0 (preFilter1 (pySplitlines scenarioC2))).1.map rowShape =
         [RowShape.boundary,
          RowShape.unchangedRow 10 10 (chars " context line"),
          RowShape.oldOnly 11 (chars "old line"),
          RowShape.newOnly 11 (chars "new line A"),
          RowShape.newOnly 12 (chars "new line B")]) := by
  decide

/-- C2 (amended): on the §8 scenario input the code reports difference
count 3, writes only the hunk boundary row, and aborts with the
`AttributeError` raised on the context line. -/
theorem C2_actual_behavior :
    renderItems1 scenarioC2 =
      ([.diffCount 3, .funcNames [], .row .boundary], some .attributeError) := by
  decide

/-- C7: the extractor's pattern, written with `\\s` inside a raw string,
demands a literal backslash after the keyword, so `@@ ... @@ def foo`
extracts nothing, while a header that does contain the backslash
(`def\foo`) extracts the identifier; headerless diffs give the empty
set without error. -/
theorem C7_backslash_required :
    extract_function_names (chars "@@ -1,2 +1,2 @@ def foo\n+x\n") = [] ∧
    extract_function_names (chars "@@ -1,2 +1,2 @@ def\\foo\n+x\n") = [chars "foo"] ∧
    extract_function_names (chars "@@ -1,2 +1,2 @@ function\\sbar\n") = [chars "bar"] ∧
    extract_function_names (chars "+x\n-y\n") = [] := by
  decide

/-- C8 counterexample: a `+` body line before any hunk header is not an
error; the code emits a row for it (numbered from the initial counter 0). -/
theorem C8_counterexample :
    (runRows1 0 0 [chars "+x"]).2 = none ∧ (runRows1 0 0 [chars "+x"]).1 ≠ [] := by
  decide

/-- C8 (amended): before any header the counters are 0; a `+` line
emits an old-column row at the old counter, a `-` line a new-column row
at the new counter, with no error; a context line (e.g. starting with a
space) raises `AttributeError`; there is no missing-header check. -/
theorem C8_rows_before_header :
    (∀ (t : List Char) (o n : Int),
      processLine1 o n ('+' :: t) = .ok (o + 1, n, [Row.oldSide (chars "removed") o '-' t])) ∧
    (∀ (t : List Char) (o n : Int),
      processLine1 o n ('-' :: t) = .ok (o, n + 1, [Row.newSide (chars "added") n '+' t])) ∧
    (∀ (t : List Char) (o n : Int), processLine1 o n (' ' :: t) = .error .attributeError) ∧
    runRows1 0 0 [chars "+x"] = ([Row.oldSide (chars "removed") 0 '-' (chars "x")], none) := by
  refine ⟨?_, ?_, ?_, by decide⟩ <;>
    intro t o n <;>
    simp [processLine1, chars_atat, chars_plus, chars_minus, List.isPrefixOf]

/-- C10 counterexample: a header whose start tokens are perfectly
numeric still raises when a double space shifts the positional fields
(`parts[1]` is empty), while the single-space form parses; so "error
iff a start field is non-numeric" fails. -/
theorem C10_counterexample :
    headerStarts1 (chars "@@  -10,2 +10,3 @@") = .error (.valueError []) ∧
    headerStarts1 (chars "@@ -10,2 +10,3 @@") = .ok (10, 10) := by
  decide

/-- C3 counterexample: after a valid hunk, the malformed header
`@@ -x,2 +10,2 @@` aborts with a `ValueError` whose payload is the
token `x`, not the offending line, and the rows already emitted for the
file are not discarded. -/
theorem C3_counterexample :
    ¬ ((runRows1 0 0 c3input).1 = [] ∧
       (runRows1 0 0 c3input).2 = some (.valueError (chars "@@ -x,2 +10,2 @@"))) := by
  decide

/-- C3 (amended): the loop stops at the first line that raises,
regardless of what follows, returning no further rows; on the malformed
header `@@ -x,2 +10,2 @@` the exception is a `ValueError` carrying the
offending start token `x`. -/
theorem C3_abort_on_malformed_header :
    (∀ (o n : Int) (l : Line) (e : PyErr) (rest : List Line),
      processLine1 o n l = .error e → runRows1 o n (l :: rest) = ([], some e)) ∧
    headerStarts1 (chars "@@ -x,2 +10,2 @@") = .error (.valueError (chars "x")) := by
  constructor
  · intro o n l e rest h
    simp [runRows1, h]
  · decide

/-- C3 witness: the general abort law applied at the malformed header. -/
theorem C3_abort_witness :
    runRows1 0 0 [chars "@@ -x,2 +10,2 @@", chars "+a"] =
      ([], some (.valueError (chars "x"))) :=
  C3_abort_on_malformed_header.1 0 0 (chars "@@ -x,2 +10,2 @@")
    (.valueError (chars "x")) [chars "+a"] (by decide)

/-- C4 counterexample: in a two-file run whose first file has a
malformed diff, the second file never appears in the output — the
exception aborts the whole writer. -/
theorem C4_counterexample :
    (write_diff_to_html false [dBad, dGood]).2 = some (.valueError (chars "x")) ∧
    OutItem.fileHeader (chars "b") ∉ (write_diff_to_html false [dBad, dGood]).1 := by
  decide

/-- C4 (amended): a file whose body raises makes `write_diff_to_html`
stop at that file: its heading and partial items are kept and every
remaining file is dropped, whatever it is. -/
theorem C4_error_aborts_run :
    ∀ (m : Bool) (d : DiffData) (rest : List DiffData) (e : PyErr),
      (writeFileItems m d).2 = some e →
      write_diff_to_html m (d :: rest) =
        (OutItem.fileHeader d.fileName :: (writeFileItems m d).1, some e) := by
  intro m d rest e h
  simp [write_diff_to_html, h]

/-- C4 witness: the abort law applied to the malformed file followed by
a healthy one. -/
theorem C4_error_aborts_run_witness :
    write_diff_to_html false [dBad, dGood] =
      (OutItem.fileHeader dBad.fileName :: (writeFileItems false dBad).1,
       some (.valueError (chars "x"))) :=
  C4_error_aborts_run false dBad [dGood] (.valueError (chars "x")) (by decide)

/-- C5 counterexample: in the two-commit branch a file of status `A` is
rendered as the removed (old-side) block, not as an added block. -/
theorem C5_counterexample :
    OutItem.addedBlock (enumStrip 1 (pySplitlines dAdded.fileContent)) ∉
      (writeFileItems false dAdded).1 ∧
    OutItem.removedBlock (enumStrip 1 (pySplitlines dAdded.fileContent)) ∈
      (writeFileItems false dAdded).1 := by
  decide

/-- C5 (amended): pure added/deleted files bypass the engine and render
as one whitespace-stripped block numbered from 1; in the one-commit
branch status `A` gives the added block and `D` the removed block, and
in the two-commit branch the statuses are mapped the other way around. -/
theorem C5_pure_file_blocks :
    ∀ (diff name content : List Char),
      writeFileItems true ⟨diff, name, chars "A", content⟩ =
        ([.addedNote name, .addedBlock (enumStrip 1 (pySplitlines content))], none) ∧
      writeFileItems true ⟨diff, name, chars "D", content⟩ =
        ([.deletedNote name, .removedBlock (enumStrip 1 (pySplitlines content))], none) ∧
      writeFileItems false ⟨diff, name, chars "D", content⟩ =
        ([.addedNote name, .addedBlock (enumStrip 1 (pySplitlines content))], none) ∧
      writeFileItems false ⟨diff, name, chars "A", content⟩ =
        ([.deletedNote name, .removedBlock (enumStrip 1 (pySplitlines content))], none) := by
  intro diff name content
  exact ⟨rfl, rfl, rfl, rfl⟩

theorem processLine_eq (o n : Int) (l : Line) :
    processLine1 o n l = processLine2 o n l := rfl

theorem runRows_eq : ∀ (ls : List Line) (o n : Int), runRows1 o n ls = runRows2 o n ls := by
  intro ls
  induction ls with
  | nil => intro o n; rfl
  | cons l ls ih =>
    intro o n
    rw [runRows1, runRows2, ← processLine_eq]
    cases h : processLine1 o n l with
    | error e => rfl
    | ok r => simp only [ih]

theorem renderItems_eq (diff : List Char) : renderItems1 diff = renderItems2 diff := by
  simp only [renderItems1, renderItems2, runRows_eq,
    show preFilter2 = preFilter1 from rfl, show differenceCount2 = differenceCount1 from rfl]

/-- C9: the modified-file rendering of the one-commit branch and of the
two-commit branch compute the same function of the diff text, so for a
file that is neither `A` nor `D` the whole per-file output is identical
in both modes. -/
theorem C9_modes_agree :
    (∀ diff : List Char, renderItems1 diff = renderItems2 diff) ∧
    (∀ d : DiffData, d.fileStatus ≠ chars "A" → d.fileStatus ≠ chars "D" →
      writeFileItems true d = writeFileItems false d) := by
  refine ⟨renderItems_eq, ?_⟩
  intro d hA hD
  simp [writeFileItems, hA, hD, renderItems_eq]

/-- C9 witness: the two modes agree on a concrete modified file. -/
theorem C9_modes_agree_witness :
    writeFileItems true dBad = writeFileItems false dBad :=
  C9_modes_agree.2 dBad (by decide) (by decide)

theorem elem_count (l : Line) :
    (if (chars "-").isPrefixOf l || (chars "+").isPrefixOf l then 1 else 0) =
    ((if (classify l == LineKind.Added) && !(chars "@@").isPrefixOf l then 1 else 0) +
     (if (classify l == LineKind.Removed) && !(chars "@@").isPrefixOf l then 1 else 0) : Nat) := by
  rcases l with _ | ⟨c, cs⟩
  · decide
  · by_cases hp : c = '+'
    · subst hp; simp [classify, chars_plus, chars_minus, chars_atat, List.isPrefixOf]
    · by_cases hm : c = '-'
      · subst hm; simp [classify, chars_plus, chars_minus, chars_atat, List.isPrefixOf]
      · simp [classify, chars_plus, chars_minus, chars_atat, List.isPrefixOf,
          Ne.symm hp, Ne.symm hm]

/-- C6: the difference count of the one-commit branch equals the number
of `Added` records plus the number of `Removed` records among the body
lines, and inserting or removing a hunk header anywhere leaves it
unchanged. -/
theorem C6_difference_count :
    (∀ ls : List Line, differenceCount1 ls =
       (bodyLines ls).countP (fun l => classify l == LineKind.Added) +
       (bodyLines ls).countP (fun l => classify l == LineKind.Removed)) ∧
    (∀ (xs ys : List Line) (t : Line),
       differenceCount1 (xs ++ ('@' :: '@' :: t) :: ys) = differenceCount1 (xs ++ ys)) := by
  constructor
  · intro ls
    rw [differenceCount1, ← List.countP_eq_length_filter]
    unfold bodyLines
    rw [List.countP_filter, List.countP_filter]
    induction ls with
    | nil => rfl
    | cons l ls ih =>
      rw [List.countP_cons, List.countP_cons, List.countP_cons, ih]
      have h := elem_count l
      omega
  · intro xs ys t
    unfold differenceCount1
    rw [List.filter_append, List.filter_append, List.filter_cons]
    have h : ((chars "-").isPrefixOf ('@' :: '@' :: t) ||
        (chars "+").isPrefixOf ('@' :: '@' :: t)) = false := by
      simp [chars_plus, chars_minus, List.isPrefixOf]
    rw [h]
    simp

theorem chars_atAtDash : chars "@@ -" = ['@', '@', ' ', '-'] := rfl

theorem splitOnChar_sep (sep : Char) (xs ys : List Char) (h : sep ∉ xs) :
    splitOnChar sep (xs ++ sep :: ys) = xs :: splitOnChar sep ys := by
  induction xs with
  | nil => simp [splitOnChar]
  | cons c cs ih =>
    have hc : ¬(c = sep) := fun e => h (e ▸ List.mem_cons_self c cs)
    have h2 : sep ∉ cs := fun hm => h (List.mem_cons_of_mem _ hm)
    simp only [List.cons_append, splitOnChar]
    rw [if_neg hc]
    simp only [List.append_eq]
    rw [ih h2]

theorem isPyWS_of_digit (c : Char) (h : c.isDigit = true) : isPyWS c = false := by
  by_contra hw
  rw [Bool.not_eq_false] at hw
  simp only [isPyWS, Bool.or_eq_true, decide_eq_true_eq] at hw
  rcases hw with ((((h1 | h1) | h1) | h1) | h1) | h1 <;> subst h1 <;> exact absurd h (by decide)

theorem dropWhile_digits (xs : List Char) (h : ∀ c ∈ xs, c.isDigit = true) :
    xs.dropWhile isPyWS = xs := by
  cases xs with
  | nil => rfl
  | cons c cs =>
    rw [List.dropWhile_cons, isPyWS_of_digit c (h c (List.mem_cons_self c cs))]
    simp

theorem pyDigitsAux_digits :
    ∀ (cs : List Char) (acc : Nat), (∀ c ∈ cs, c.isDigit = true) →
      pyDigitsAux acc cs = some (cs.foldl (fun a c => 10 * a + (c.toNat - 48)) acc) := by
  intro cs
  induction cs with
  | nil => intro acc _; rfl
  | cons c cs ih =>
    intro acc h
    simp only [pyDigitsAux]
    rw [if_pos (h c (List.mem_cons_self c cs)),
      ih _ (fun x hx => h x (List.mem_cons_of_mem _ hx))]
    rfl

theorem pyInt_digits (xs : List Char) (hne : xs ≠ []) (h : ∀ c ∈ xs, c.isDigit = true) :
    pyInt xs = some (Int.ofNat (decVal xs)) := by
  have hrev : ∀ c ∈ xs.reverse, c.isDigit = true := fun c hc => h c (List.mem_reverse.mp hc)
  rcases xs with _ | ⟨c, cs⟩
  · exact absurd rfl hne
  · have hd := h c (List.mem_cons_self c cs)
    have hplus : ¬(c = '+') := fun e => by rw [e] at hd; exact absurd hd (by decide)
    have hminus : ¬(c = '-') := fun e => by rw [e] at hd; exact absurd hd (by decide)
    unfold pyInt
    rw [dropWhile_digits _ h, dropWhile_digits _ hrev, List.reverse_reverse]
    split
    · rename_i heq; rw [List.cons.injEq] at heq; exact absurd heq.1 hplus
    · rename_i heq; rw [List.cons.injEq] at heq; exact absurd heq.1 hminus
    · simp only [pyDigits]
      rw [if_pos hd, pyDigitsAux_digits _ _ (fun x hx => h x (List.mem_cons_of_mem _ hx))]
      simp [decVal]

theorem headerStarts1_parts (l : Line) (p0 p1 p2 : List Char) (rest : List (List Char))
    (a b : Int)
    (hsplit : splitOnChar ' ' l = p0 :: p1 :: p2 :: rest)
    (h1 : pyInt (((splitOnChar ',' p1).headD []).drop 1) = some a)
    (h2 : pyInt (((splitOnChar ',' p2).headD []).drop 1) = some b) :
    headerStarts1 l = .ok (a, b) := by
  simp only [headerStarts1, hsplit, List.get?]
  rw [h1, h2]

/-- C10 (amended): only the second and third space-separated fields of a
`@@` line matter, and of those only the part before the first comma with
its first character dropped; when those parts are digit strings the
header parses to their values, whatever the count texts (any space-free
text) and the trailer (anything) are — so counts and trailer can be
absent, non-numeric or arbitrary without error and never affect the
rows.  (The "error iff a start field is non-numeric" form of the claim
fails: see the counterexample, where a double space makes `parts[1]`
empty.) -/
theorem C10_counts_and_trailer_ignored :
    ∀ (o c1 n c2 trail : List Char),
      o ≠ [] → (∀ c ∈ o, c.isDigit = true) →
      n ≠ [] → (∀ c ∈ n, c.isDigit = true) →
      ' ' ∉ c1 → ' ' ∉ c2 →
      headerStarts1 (mkHeader o c1 n c2 trail) =
        .ok (Int.ofNat (decVal o), Int.ofNat (decVal n)) := by
  intro o c1 n c2 trail hone ho htwo hn hc1 hc2
  have hosp : ' ' ∉ o := fun hm => absurd (ho ' ' hm) (by decide)
  have hnsp : ' ' ∉ n := fun hm => absurd (hn ' ' hm) (by decide)
  have hocomma : ',' ∉ o := fun hm => absurd (ho ',' hm) (by decide)
  have hncomma : ',' ∉ n := fun hm => absurd (hn ',' hm) (by decide)
  have e1 : mkHeader o c1 n c2 trail =
      ['@', '@'] ++ ' ' :: ((('-' :: o) ++ ',' :: c1) ++
        ' ' :: ((('+' :: n) ++ ',' :: c2) ++ ' ' :: trail)) := by
    simp [mkHeader, chars_atAtDash, List.append_assoc]
  have hs1 : ' ' ∉ (['@', '@'] : List Char) := by decide
  have hs2 : ' ' ∉ ('-' :: o) ++ ',' :: c1 := by
    intro hm
    rcases List.mem_append.mp hm with hL | hR
    · rcases List.mem_cons.mp hL with he | ho2
      · exact absurd he (by decide)
      · exact hosp ho2
    · rcases List.mem_cons.mp hR with he | hc
      · exact absurd he (by decide)
      · exact hc1 hc
  have hs3 : ' ' ∉ ('+' :: n) ++ ',' :: c2 := by
    intro hm
    rcases List.mem_append.mp hm with hL | hR
    · rcases List.mem_cons.mp hL with he | hn2
      · exact absurd he (by decide)
      · exact hnsp hn2
    · rcases List.mem_cons.mp hR with he | hc
      · exact absurd he (by decide)
      · exact hc2 hc
  have hsplit : splitOnChar ' ' (mkHeader o c1 n c2 trail) =
      ['@', '@'] :: (('-' :: o) ++ ',' :: c1) :: (('+' :: n) ++ ',' :: c2) ::
        splitOnChar ' ' trail := by
    rw [e1, splitOnChar_sep ' ' ['@', '@'] _ hs1, splitOnChar_sep ' ' _ _ hs2,
      splitOnChar_sep ' ' _ _ hs3]
  have hoc : ',' ∉ '-' :: o := by
    intro hm
    rcases List.mem_cons.mp hm with he | h2
    · exact absurd he (by decide)
    · exact hocomma h2
  have hnc : ',' ∉ '+' :: n := by
    intro hm
    rcases List.mem_cons.mp hm with he | h2
    · exact absurd he (by decide)
    · exact hncomma h2
  have hp1 : pyInt (((splitOnChar ',' (('-' :: o) ++ ',' :: c1)).headD []).drop 1) =
      some (Int.ofNat (decVal o)) := by
    rw [splitOnChar_sep ',' ('-' :: o) c1 hoc]
    simp only [List.headD_cons, List.drop_succ_cons, List.drop_zero]
    exact pyInt_digits o hone ho
  have hp2 : pyInt (((splitOnChar ',' (('+' :: n) ++ ',' :: c2)).headD []).drop 1) =
      some (Int.ofNat (decVal n)) := by
    rw [splitOnChar_sep ',' ('+' :: n) c2 hnc]
    simp only [List.headD_cons, List.drop_succ_cons, List.drop_zero]
    exact pyInt_digits n htwo hn
  exact headerStarts1_parts _ _ _ _ _ _ _ hsplit hp1 hp2

/-- C10 witness: the field family applied at `@@ -10,x +7,y@ @@ trailer`
(non-numeric counts, arbitrary trailer) parses to starts 10 and 7. -/
theorem C10_counts_witness :
    headerStarts1 (mkHeader (chars "10") (chars "x") (chars "7") (chars "y@")
      (chars "@@ trailer")) = .ok (10, 7) :=
  (C10_counts_and_trailer_ignored (chars "10") (chars "x") (chars "7") (chars "y@")
    (chars "@@ trailer") (by decide) (by decide) (by decide) (by decide) (by decide)
    (by decide)).trans (by decide)
